import Mathlib

/-!
Verification of the VoxText repository (offline streaming speech-to-text
front end) against its natural-language specification.

The development shallowly embeds the decision logic of the three Python
sources:

* `src/Voxtext.py`     — continuous console loop (final/partial printing,
  partial throttling, bounded audio queue);
* `src/Voxtext1.py`    — push-to-talk Tk app (`normalize_text`,
  `should_print`, worker loop, toggle start/stop with drain-and-flush);
* `src/Voxtext_app.py` — customtkinter app (stt loop, toggle start/stop).

Machine-level concerns (actual audio, Vosk, threads, real time) are
abstracted: the recognizer's per-frame outcome is an input value, time is
an explicit integer count of milliseconds, and the interleaving of the UI thread and
the worker thread is an explicit event list.  String operations from
Python are implemented structurally over `List Char` so that every
definition evaluates inside the kernel.
-/

/-- Python's no-argument `str.split` on a character list: splits on runs of
whitespace and drops empty pieces.  `acc` holds the current word reversed. -/
def pySplitAux : List Char → List Char → List (List Char)
  | acc, [] => if acc = [] then [] else [acc.reverse]
  | acc, c :: cs =>
    if c.isWhitespace then
      if acc = [] then pySplitAux [] cs else acc.reverse :: pySplitAux [] cs
    else pySplitAux (c :: acc) cs

/-- Joins words with single spaces, as Python's `" ".join(words)`. -/
def joinWords : List (List Char) → List Char
  | [] => []
  | [w] => w
  | w :: ws => w ++ ' ' :: joinWords ws

/-- Drops leading whitespace characters. -/
def dropLeadingWS : List Char → List Char
  | [] => []
  | c :: cs => if c.isWhitespace then dropLeadingWS cs else c :: cs

/-- Python's `str.strip()` on a character list: drop whitespace from both
ends. -/
def pyStrip (cs : List Char) : List Char :=
  (dropLeadingWS (dropLeadingWS cs).reverse).reverse

/-- Python's `str.strip()` at string level, as applied to recognizer
results (`(res.get("text") or "").strip()`) in all three sources. -/
def pyStripS (s : String) : String :=
  String.mk (pyStrip s.data)

/-- Embeds `normalize_text` from `src/Voxtext1.py` lines 39-40:
`" ".join((t or "").lower().strip().split())`.  Python's no-argument
`split` already ignores leading and trailing whitespace (making the
`strip` redundant); `lower` is modelled by per-character ASCII
lowercasing. -/
def normalize_text (t : String) : String :=
  String.mk (joinWords (pySplitAux [] (t.data.map Char.toLower)))

/-- Embeds `should_print` from `src/Voxtext1.py` lines 43-53.  The Python
locals `n` / `l` are written out as `normalize_text new_text` /
`normalize_text last_text`; Python's substring test `a in b` is infix of
the character lists; Python's truthiness test `if l` is the nonemptiness
test. -/
def should_print (new_text last_text : String) : Bool :=
  if normalize_text new_text = "" then false
  else if normalize_text new_text = normalize_text last_text then false
  else if normalize_text last_text ≠ "" ∧
      ((normalize_text new_text).data <:+: (normalize_text last_text).data
        ∨ (normalize_text last_text).data <:+: (normalize_text new_text).data) then
    decide ((normalize_text last_text).length < (normalize_text new_text).length)
  else true

/-- Embeds the producer push of all three sources
(`audio_q.put_nowait(...)` guarded by `except queue.Full: pass`, e.g.
`src/Voxtext.py` lines 48-52, `src/Voxtext1.py` lines 115-118,
`src/Voxtext_app.py` lines 185-188): a total function that appends when
below capacity and otherwise drops the incoming frame, reporting the drop. -/
def qpush (cap : Nat) (q : List Nat) (f : Nat) : List Nat × Bool :=
  if q.length < cap then (q ++ [f], false) else (q, true)

/-- A sequence of producer pushes with no intervening pop. -/
def qpushAll (cap : Nat) (q : List Nat) (fs : List Nat) : List Nat :=
  fs.foldl (fun acc f => (qpush cap acc f).1) q

/-- Which code site forwarded a frame to the recognizer: the background
worker loop, or the drain loop inside the stop branch of
`toggle_listening`. -/
inductive FwdSrc where
  | worker
  | drain
deriving DecidableEq

/-- One observable call into the opaque Vosk recognizer.  `accept` records
the frame, the forwarding site and the value of the session's `listening`
flag at the moment of the call. -/
inductive RecCall where
  | accept (frame : Nat) (src : FwdSrc) (listeningAtCall : Bool)
  | finalResult
  | reset
deriving DecidableEq

/-- The 0.4-second (400 ms) drain window used by the stop branches of
`src/Voxtext1.py` (line 177) and `src/Voxtext_app.py` (line 218). -/
def DRAIN_WINDOW_MS : ℤ := 400

/-- Embeds the stop-branch drain loop
(`while time.time() < time_limit: ... get_nowait ... AcceptWaveform`,
`src/Voxtext1.py` lines 177-183 and `src/Voxtext_app.py` lines 218-224).
Arguments: the queue, the current clock value, and the clock advance of
each successive iteration.  Returns the frames forwarded to the
recognizer, the frames left in the queue, and the clock value at the loop
exit check. -/
def drainLoop (deadline : ℤ) : List Nat → ℤ → List ℤ → List Nat × List Nat × ℤ
  | [], now, _ => ([], [], now)
  | f :: rest, now, costs =>
    if deadline ≤ now then ([], f :: rest, now)
    else
      match costs with
      | [] =>
        let r := drainLoop deadline rest now []
        (f :: r.1, r.2.1, r.2.2)
      | c :: cs =>
        let r := drainLoop deadline rest (now + c) cs
        (f :: r.1, r.2.1, r.2.2)

/-- Outcome of one consumer-loop iteration of the opaque recognizer on the
popped frame: `AcceptWaveform` returned true and `Result()` carried
`text`; or `AcceptWaveform` returned false and `PartialResult()` carried
`p`; or the recognizer raised an exception. -/
inductive RecOut where
  | fin (text : String)
  | inter (p : String)
  | err
deriving DecidableEq

/-- A visible transcript event: a printed final or a printed partial. -/
inductive Emit where
  | fin (text : String)
  | inter (p : String)
deriving DecidableEq

/-- Consumer-loop state of `src/Voxtext.py` `main` (lines 83-85):
`last_final_text`, `partial_last` and `last_partial_print_t`. -/
structure VoxState where
  lastFinalText : String
  interLast : String
  lastInterT : ℤ
deriving DecidableEq

/-- `PARTIAL_THROTTLE_MS = 0.08` (80 ms) from `src/Voxtext.py` line 85 and
`src/Voxtext_app.py` line 64. -/
def THROTTLE_MS : ℤ := 80

/-- `MIN_FINAL_CHARS = 1` from `src/Voxtext.py` line 19. -/
def VT_MIN_FINAL_CHARS : Nat := 1

/-- Embeds one iteration of the consumer loop of `src/Voxtext.py` `main`
(lines 96-120) after the frame pop: the final branch prints when the
stripped text is long enough and differs from `last_final_text` (also
resetting `partial_last`), the partial branch prints when the stripped
partial is nonempty, differs from `partial_last` and the throttle interval
has elapsed.  `none` models an uncaught exception escaping the loop. -/
def vtStep (st : VoxState) (r : RecOut) (now : ℤ) : Option (VoxState × Option Emit) :=
  match r with
  | .err => none
  | .fin t0 =>
    if VT_MIN_FINAL_CHARS ≤ (pyStripS t0).length ∧ pyStripS t0 ≠ st.lastFinalText then
      some (⟨pyStripS t0, "", st.lastInterT⟩, some (.fin (pyStripS t0)))
    else some (st, none)
  | .inter p0 =>
    if pyStripS p0 ≠ "" ∧ pyStripS p0 ≠ st.interLast
        ∧ THROTTLE_MS ≤ now - st.lastInterT then
      some (⟨st.lastFinalText, pyStripS p0, now⟩, some (.inter (pyStripS p0)))
    else some (st, none)

/-- Runs the `src/Voxtext.py` consumer loop over a list of per-frame
recognizer outcomes tagged with the clock value observed at that
iteration.  Returns the final state, the emitted events tagged with their
emission time, and whether the loop was aborted by an uncaught
exception (in which case the remaining input is never processed). -/
def vtRun : VoxState → List (RecOut × ℤ) → VoxState × List (Emit × ℤ) × Bool
  | st, [] => (st, [], false)
  | st, (r, t) :: rest =>
    match vtStep st r t with
    | none => (st, [], true)
    | some (st2, none) => vtRun st2 rest
    | some (st2, some ev) =>
      let res := vtRun st2 rest
      (res.1, (ev, t) :: res.2.1, res.2.2)

/-- The state of `src/Voxtext.py` `main` when the loop starts. -/
def vtSt0 : VoxState := ⟨"", "", 0⟩

/-- The emission times of the partial events of a trace. -/
def interTimes : List (Emit × ℤ) → List ℤ
  | [] => []
  | (Emit.inter _, t) :: rest => t :: interTimes rest
  | (Emit.fin _, _) :: rest => interTimes rest

/-- The texts of the partial events of a trace. -/
def interTexts : List (Emit × ℤ) → List String
  | [] => []
  | (Emit.inter p, _) :: rest => p :: interTexts rest
  | (Emit.fin _, _) :: rest => interTexts rest

/-- `MIN_FINAL_CHARS = 1` from `src/Voxtext_app.py` line 20. -/
def APP_MIN_FINAL_CHARS : Nat := 1

/-- Session state of the customtkinter app `VoxTextApp`
(`src/Voxtext_app.py` lines 53-64): the `listening` flag, the audio
queue, `last_final_text`, `partial_last`, `last_partial_t`, plus the trace
of calls made into the recognizer. -/
structure AppState where
  listening : Bool
  q : List Nat
  lastFinalText : String
  interLast : String
  lastInterT : ℤ
  calls : List RecCall
deriving DecidableEq

/-- Embeds one iteration of `VoxTextApp.stt_loop` (`src/Voxtext_app.py`
lines 239-263) after the frame pop: a popped frame is discarded while not
listening; the final branch prints when the stripped text is long enough
and differs from `last_final_text` (without touching `partial_last`); the
partial branch is throttled exactly as in `src/Voxtext.py`.  `none` models
an uncaught exception escaping the loop thread. -/
def appLoopStep (st : AppState) (r : RecOut) (now : ℤ) : Option (AppState × Option Emit) :=
  if st.listening = false then some (st, none)
  else
    match r with
    | .err => none
    | .fin t0 =>
      if APP_MIN_FINAL_CHARS ≤ (pyStripS t0).length ∧ pyStripS t0 ≠ st.lastFinalText then
        some ({st with lastFinalText := pyStripS t0}, some (.fin (pyStripS t0)))
      else some (st, none)
    | .inter p0 =>
      if pyStripS p0 ≠ "" ∧ pyStripS p0 ≠ st.interLast
          ∧ THROTTLE_MS ≤ now - st.lastInterT then
        some ({st with interLast := pyStripS p0, lastInterT := now},
          some (.inter (pyStripS p0)))
      else some (st, none)

/-- The unconditional queue-emptying loop run at the start of a listen
cycle (`while True: get_nowait ... except queue.Empty: break`,
`src/Voxtext_app.py` lines 204-208). -/
def drainAll : List Nat → List Nat
  | [] => []
  | _ :: rest => drainAll rest

/-- Embeds the start branch of `VoxTextApp.toggle_listening`
(`src/Voxtext_app.py` lines 191-208): sets `listening`, clears
`last_final_text`, `partial_last` and `last_partial_t`, calls
`rec.Reset()`, and empties the audio queue. -/
def appToggleStart (st : AppState) : AppState :=
  ⟨true, drainAll st.q, "", "", 0, st.calls ++ [RecCall.reset]⟩

/-- Embeds the stop branch of `VoxTextApp.toggle_listening`
(`src/Voxtext_app.py` lines 209-236): clears `listening`, drains queued
frames into the recognizer until the queue is empty or 400 ms have
elapsed, calls `FinalResult()` once, and prints the stripped final text
when it is long enough and differs from `last_final_text`.  The
`listening` flag recorded on the drained accepts is the value at the
call, which the branch has already set to false. -/
def appToggleStop (st : AppState) (finalText : String) (now : ℤ) (costs : List ℤ) :
    AppState × Option String :=
  let d := drainLoop (now + DRAIN_WINDOW_MS) st.q now costs
  let calls2 := st.calls ++ d.1.map (fun f => RecCall.accept f .drain false)
    ++ [RecCall.finalResult]
  if APP_MIN_FINAL_CHARS ≤ (pyStripS finalText).length
      ∧ pyStripS finalText ≠ st.lastFinalText then
    (⟨false, d.2.1, pyStripS finalText, st.interLast, st.lastInterT, calls2⟩,
      some (pyStripS finalText))
  else
    (⟨false, d.2.1, st.lastFinalText, st.interLast, st.lastInterT, calls2⟩, none)

/-- Runs the `src/Voxtext_app.py` stt loop over a list of per-frame
recognizer outcomes tagged with the clock value observed at that
iteration, exactly as `vtRun` does for `src/Voxtext.py`: returns the
final state, the emitted events tagged with their emission time, and
whether the loop was aborted by an uncaught exception (in which case the
remaining input is never processed). -/
def appRun : AppState → List (RecOut × ℤ) → AppState × List (Emit × ℤ) × Bool
  | st, [] => (st, [], false)
  | st, (r, t) :: rest =>
    match appLoopStep st r t with
    | none => (st, [], true)
    | some (st2, none) => appRun st2 rest
    | some (st2, some ev) =>
      let res := appRun st2 rest
      (res.1, (ev, t) :: res.2.1, res.2.2)

/-- Queue capacity 200 from `src/Voxtext1.py` line 78. -/
def V1_QUEUE_CAP : Nat := 200

/-- `MIN_FINAL_CHARS = 2` from `src/Voxtext1.py` line 24. -/
def V1_MIN_FINAL_CHARS : Nat := 2

/-- Session state of the push-to-talk app `PushToTalkApp`
(`src/Voxtext1.py` lines 75-82): the `listening` flag, the audio queue,
`last_final`, the printed final lines, and the trace of calls made into
the recognizer. -/
structure PTT1State where
  listening : Bool
  q : List Nat
  lastFinal : String
  finals : List String
  calls : List RecCall
deriving DecidableEq

/-- Embeds the stop branch of `PushToTalkApp.toggle_listening`
(`src/Voxtext1.py` lines 169-198): clears `listening`, drains queued
frames into the recognizer until the queue is empty or 400 ms have
elapsed, calls `FinalResult()` once, and prints the stripped final text
when it is long enough and `should_print` accepts it against
`last_final`.  Returns the new state and the recognizer calls made by
this transition; the `listening` flag recorded on the drained accepts is
the value at the call, which the branch has already set to false. -/
def ptt1Finalize (st : PTT1State) (finalText : String) (now : ℤ) (costs : List ℤ) :
    PTT1State × List RecCall :=
  let d := drainLoop (now + DRAIN_WINDOW_MS) st.q now costs
  let newCalls := d.1.map (fun f => RecCall.accept f .drain false) ++ [RecCall.finalResult]
  if V1_MIN_FINAL_CHARS ≤ (pyStripS finalText).length
      ∧ should_print (pyStripS finalText) st.lastFinal = true then
    (⟨false, d.2.1, pyStripS finalText, st.finals ++ [pyStripS finalText],
      st.calls ++ newCalls⟩, newCalls)
  else
    (⟨false, d.2.1, st.lastFinal, st.finals, st.calls ++ newCalls⟩, newCalls)

/-- One observable event of the push-to-talk session: a capture callback
delivering a frame, one worker-loop iteration (with the outcome of its
`AcceptWaveform` call: `fails` means the recognizer raised), or a button
press of `toggle_listening` (carrying, for the stop branch, the text that
`FinalResult()` will yield, the clock value, and the clock advance of
each drain iteration). -/
inductive PTT1Event where
  | callback (f : Nat)
  | workerStep (fails : Bool)
  | toggle (finalText : String) (now : ℤ) (costs : List ℤ)
deriving DecidableEq

/-- Embeds one event of `PushToTalkApp`: `audio_callback`
(`src/Voxtext1.py` lines 111-118) enqueues only while listening and drops
on a full queue; one `worker_loop` iteration (lines 200-219) pops a frame,
discards it when not listening, and otherwise forwards it to
`AcceptWaveform` inside a `try` whose `except` swallows any recognizer
error, so a failing accept changes nothing else; `toggle_listening`
(lines 158-198) starts a cycle (just `rec.Reset()`; `last_final` is not
touched) or runs the stop branch. -/
def ptt1Step (st : PTT1State) : PTT1Event → PTT1State
  | .callback f =>
    if st.listening then
      if st.q.length < V1_QUEUE_CAP then
        ⟨st.listening, st.q ++ [f], st.lastFinal, st.finals, st.calls⟩
      else st
    else st
  | .workerStep _fails =>
    match st.q with
    | [] => st
    | f :: rest =>
      if st.listening then
        ⟨st.listening, rest, st.lastFinal, st.finals,
          st.calls ++ [RecCall.accept f .worker st.listening]⟩
      else ⟨st.listening, rest, st.lastFinal, st.finals, st.calls⟩
  | .toggle finalText now costs =>
    if st.listening then (ptt1Finalize st finalText now costs).1
    else ⟨true, st.q, st.lastFinal, st.finals, st.calls ++ [RecCall.reset]⟩

/-- Runs a sequence of push-to-talk session events. -/
def ptt1Run : PTT1State → List PTT1Event → PTT1State
  | st, [] => st
  | st, e :: es => ptt1Run (ptt1Step st e) es

/-- The state of `PushToTalkApp` right after construction. -/
def ptt1St0 : PTT1State := ⟨false, [], "", [], []⟩

/-- A recognizer call respects the gating discipline when a worker-loop
accept carries `listening = true` and a drain accept carries
`listening = false`. -/
def gatingOk : RecCall → Bool
  | .accept _ .worker b => b
  | .accept _ .drain b => !b
  | _ => true

/-- Modelled from the spec: the gate states of spec section 4.3.  No
`SpeechGate` implementation exists under `src/`; the state machine is
taken from the specification's state list and transition table. -/
inductive GateState where
  | Calibrating
  | Silence
  | Onset
  | Speech
  | Hangover
deriving DecidableEq

/-- Modelled from the spec: the per-session gate configuration of spec
sections 3 and 4.3 — start and stop thresholds (already combined from the
noise floor, multipliers and absolute minimum), minimum speech duration,
hangover duration, forced-finalize silence duration and block duration,
all in milliseconds. -/
structure GateCfg where
  startThreshold : Nat
  stopThreshold : Nat
  minSpeechMs : Nat
  hangoverMs : Nat
  forceFinalizeMs : Nat
  blockMs : Nat
deriving DecidableEq

/-- Modelled from the spec: the mutable gate bookkeeping — current state,
accumulated onset duration, remaining hangover countdown, accumulated
post-speech silence, and remaining calibration window. -/
structure GateSt where
  state : GateState
  onsetMs : Nat
  hangLeftMs : Nat
  silenceMs : Nat
  calibLeftMs : Nat
deriving DecidableEq

/-- Modelled from the spec: one per-frame transition of the `SpeechGate`
state machine, following the transition table of spec section 4.3 row by
row for a frame of energy `e`.  Returns the next state together with the
`utteranceEnded` and `forceFinalize` events. -/
def gateStep (cfg : GateCfg) (g : GateSt) (e : Nat) : GateSt × Bool × Bool :=
  match g.state with
  | .Calibrating =>
    if g.calibLeftMs ≤ cfg.blockMs then (⟨.Silence, 0, 0, 0, 0⟩, false, false)
    else (⟨.Calibrating, 0, 0, 0, g.calibLeftMs - cfg.blockMs⟩, false, false)
  | .Silence =>
    if cfg.startThreshold ≤ e then
      (⟨.Onset, cfg.blockMs, g.hangLeftMs, g.silenceMs, 0⟩, false, false)
    else if cfg.forceFinalizeMs ≤ g.silenceMs + cfg.blockMs then
      (⟨.Silence, 0, g.hangLeftMs, 0, 0⟩, false, true)
    else
      (⟨.Silence, 0, g.hangLeftMs, g.silenceMs + cfg.blockMs, 0⟩, false, false)
  | .Onset =>
    if e < cfg.startThreshold then
      (⟨.Silence, 0, g.hangLeftMs, g.silenceMs, 0⟩, false, false)
    else if cfg.minSpeechMs ≤ g.onsetMs + cfg.blockMs then
      (⟨.Speech, g.onsetMs + cfg.blockMs, cfg.hangoverMs, 0, 0⟩, false, false)
    else
      (⟨.Onset, g.onsetMs + cfg.blockMs, g.hangLeftMs, g.silenceMs, 0⟩, false, false)
  | .Speech =>
    if e < cfg.stopThreshold then
      (⟨.Hangover, g.onsetMs, cfg.hangoverMs, cfg.blockMs, 0⟩, false, false)
    else
      (⟨.Speech, g.onsetMs, cfg.hangoverMs, 0, 0⟩, false, false)
  | .Hangover =>
    if cfg.stopThreshold ≤ e then
      (⟨.Speech, g.onsetMs, cfg.hangoverMs, 0, 0⟩, false, false)
    else if g.hangLeftMs ≤ cfg.blockMs then
      (⟨.Silence, 0, 0, g.silenceMs + cfg.blockMs, 0⟩, true, false)
    else
      (⟨.Hangover, g.onsetMs, g.hangLeftMs - cfg.blockMs,
        g.silenceMs + cfg.blockMs, 0⟩, false, false)

/-- Modelled from the spec: the binary feed-recognizer decision — frames
are fed exactly when the gate is in `Speech` or `Hangover` (spec
sections 3 and 4.4). -/
def gateFeeds (g : GateSt) : Bool :=
  match g.state with
  | .Speech => true
  | .Hangover => true
  | _ => false

/-- Runs the gate over a list of per-frame energies. -/
def gateRun (cfg : GateCfg) (g : GateSt) (es : List Nat) : GateSt :=
  es.foldl (fun s e => (gateStep cfg s e).1) g

/-- A nonempty string has positive length. -/
theorem strLengthPos (s : String) (h : s ≠ "") : 0 < s.length := by
  cases s with
  | mk d =>
    cases d with
    | nil => exact absurd rfl h
    | cons c cs => simp [String.length]

/-- C2: `should_print` lower-cases and whitespace-collapses both strings,
rejects an empty or equal normalized new text, resolves the
substring-containment case by keeping the strictly longer text, accepts in
all remaining cases, and satisfies the three concrete near-duplicate laws
from the specification. -/
theorem C2_should_print_spec (newText lastText : String) :
    (normalize_text newText = "" → should_print newText lastText = false)
    ∧ (normalize_text newText = normalize_text lastText →
        should_print newText lastText = false)
    ∧ (((normalize_text newText).data <:+: (normalize_text lastText).data
          ∨ (normalize_text lastText).data <:+: (normalize_text newText).data) →
        (should_print newText lastText = true ↔
          (normalize_text lastText).length < (normalize_text newText).length))
    ∧ (normalize_text newText ≠ "" →
        normalize_text newText ≠ normalize_text lastText →
        ¬ (normalize_text newText).data <:+: (normalize_text lastText).data →
        ¬ (normalize_text lastText).data <:+: (normalize_text newText).data →
        should_print newText lastText = true)
    ∧ should_print "the cat sat" "" = true
    ∧ should_print "the cat" "the cat sat" = false
    ∧ should_print "the cat sat down" "the cat sat" = true := by
  refine ⟨?_, ?_, ?_, ?_, by decide, by decide, by decide⟩
  · intro h
    unfold should_print
    rw [if_pos h]
  · intro h
    unfold should_print
    by_cases h1 : normalize_text newText = ""
    · rw [if_pos h1]
    · rw [if_neg h1, if_pos h]
  · intro hinf
    unfold should_print
    by_cases h1 : normalize_text newText = ""
    · have hn : (normalize_text newText).length = 0 := by rw [h1]; rfl
      rw [if_pos h1]
      constructor
      · intro hco
        simp only [Bool.false_eq_true] at hco
      · intro hlt
        rw [hn] at hlt
        exact absurd hlt (Nat.not_lt_zero _)
    · by_cases h2 : normalize_text newText = normalize_text lastText
      · rw [if_neg h1, if_pos h2, h2]
        constructor
        · intro hco
          simp only [Bool.false_eq_true] at hco
        · intro hlt
          exact absurd hlt (lt_irrefl _)
      · by_cases h3 : normalize_text lastText ≠ "" ∧
            ((normalize_text newText).data <:+: (normalize_text lastText).data
              ∨ (normalize_text lastText).data <:+: (normalize_text newText).data)
        · rw [if_neg h1, if_neg h2, if_pos h3]
          simp only [decide_eq_true_eq]
        · rw [if_neg h1, if_neg h2, if_neg h3]
          have hl : normalize_text lastText = "" := by
            by_contra hl
            exact h3 ⟨hl, hinf⟩
          have hl0 : (normalize_text lastText).length = 0 := by rw [hl]; rfl
          constructor
          · intro _
            rw [hl0]
            exact strLengthPos _ h1
          · intro _
            rfl
  · intro hne hneq hni1 hni2
    unfold should_print
    rw [if_neg hne, if_neg hneq, if_neg]
    intro h3
    rcases h3.2 with h | h
    · exact absurd h hni1
    · exact absurd h hni2

/-- C5: pushing any sequence of frames with no intervening pops keeps the
queue size at or below capacity, and a push against a full queue returns
the queue unchanged with the dropped indication (the push is a total
function, so the producer is never blocked). -/
theorem C5_queue_backpressure (cap : Nat) (q : List Nat) (fs : List Nat) (f : Nat)
    (hq : q.length ≤ cap) :
    (qpushAll cap q fs).length ≤ cap
    ∧ (q.length = cap → qpush cap q f = (q, true)) := by
  constructor
  · induction fs generalizing q with
    | nil => exact hq
    | cons a as ih =>
      show (qpushAll cap (qpush cap q a).1 as).length ≤ cap
      apply ih
      unfold qpush
      by_cases h : q.length < cap
      · rw [if_pos h]
        simp only [List.length_append, List.length_singleton]
        omega
      · rw [if_neg h]
        exact hq
  · intro h
    unfold qpush
    rw [if_neg (by omega)]

/-- Witness for C5 at capacity 2. -/
theorem C5_queue_backpressure_witness :
    ([1, 2].length ≤ 2)
    ∧ ((qpushAll 2 [1, 2] [5, 6, 7]).length ≤ 2
        ∧ ([1, 2].length = 2 → qpush 2 [1, 2] 9 = ([1, 2], true))) :=
  ⟨by decide, C5_queue_backpressure 2 [1, 2] [5, 6, 7] 9 (by decide)⟩

/-- The drain loop stops only by exhausting the queue or reaching the
deadline. -/
theorem drainLoop_exit (deadline : ℤ) (q : List Nat) (now : ℤ) (costs : List ℤ) :
    (drainLoop deadline q now costs).2.1 = []
    ∨ deadline ≤ (drainLoop deadline q now costs).2.2 := by
  induction q generalizing now costs with
  | nil => exact Or.inl rfl
  | cons f rest ih =>
    unfold drainLoop
    by_cases h : deadline ≤ now
    · rw [if_pos h]
      exact Or.inr h
    · rw [if_neg h]
      match costs with
      | [] => exact ih now []
      | c :: cs => exact ih (now + c) cs

/-- Witness for C2: the substring branch evaluated at concrete strings. -/
theorem C2_should_print_spec_witness :
    ((normalize_text "the cat").data <:+: (normalize_text "the cat sat").data
      ∨ (normalize_text "the cat sat").data <:+: (normalize_text "the cat").data)
    ∧ (should_print "the cat" "the cat sat" = true ↔
        (normalize_text "the cat sat").length < (normalize_text "the cat").length) :=
  ⟨by decide, (C2_should_print_spec "the cat" "the cat sat").2.2.1 (by decide)⟩

/-- Each emitted partial lies at least one throttle interval after the
tracked `last_partial_print_t`, and the tracker is advanced to the
emission time, so successive emitted partials are throttle-separated. -/
theorem vtRun_inter_chain (input : List (RecOut × ℤ)) (st : VoxState) :
    List.Chain' (fun a b : ℤ => a + THROTTLE_MS ≤ b)
      (st.lastInterT :: interTimes (vtRun st input).2.1) := by
  induction input generalizing st with
  | nil => simp [vtRun, interTimes]
  | cons e rest ih =>
    rcases e with ⟨r, t⟩
    cases r with
    | err => simp [vtRun, vtStep, interTimes]
    | fin t0 =>
      by_cases h : VT_MIN_FINAL_CHARS ≤ (pyStripS t0).length
          ∧ pyStripS t0 ≠ st.lastFinalText
      · simpa [vtRun, vtStep, if_pos h, interTimes]
          using ih ⟨pyStripS t0, "", st.lastInterT⟩
      · simpa [vtRun, vtStep, if_neg h] using ih st
    | inter p0 =>
      by_cases h : pyStripS p0 ≠ "" ∧ pyStripS p0 ≠ st.interLast
          ∧ THROTTLE_MS ≤ t - st.lastInterT
      · have harith : st.lastInterT + THROTTLE_MS ≤ t := by
          have := h.2.2
          omega
        have hrest := ih ⟨st.lastFinalText, pyStripS p0, t⟩
        simp only [vtRun, vtStep, if_pos h, interTimes]
        exact List.chain'_cons.mpr ⟨harith, hrest⟩
      · simpa [vtRun, vtStep, if_neg h] using ih st

/-- Each partial emitted by the `src/Voxtext_app.py` stt loop lies at
least one throttle interval after the tracked `last_partial_t`, and the
tracker is advanced to the emission time, so successive emitted partials
are throttle-separated. -/
theorem appRun_inter_chain (input : List (RecOut × ℤ)) (st : AppState) :
    List.Chain' (fun a b : ℤ => a + THROTTLE_MS ≤ b)
      (st.lastInterT :: interTimes (appRun st input).2.1) := by
  induction input generalizing st with
  | nil => simp [appRun, interTimes]
  | cons e rest ih =>
    rcases e with ⟨r, t⟩
    by_cases hl : st.listening = false
    · simpa [appRun, appLoopStep, if_pos hl] using ih st
    · cases r with
      | err => simp [appRun, appLoopStep, if_neg hl, interTimes]
      | fin t0 =>
        by_cases h : APP_MIN_FINAL_CHARS ≤ (pyStripS t0).length
            ∧ pyStripS t0 ≠ st.lastFinalText
        · simpa [appRun, appLoopStep, if_neg hl, if_pos h, interTimes]
            using ih {st with lastFinalText := pyStripS t0}
        · simpa [appRun, appLoopStep, if_neg hl, if_neg h] using ih st
      | inter p0 =>
        by_cases h : pyStripS p0 ≠ "" ∧ pyStripS p0 ≠ st.interLast
            ∧ THROTTLE_MS ≤ t - st.lastInterT
        · have harith : st.lastInterT + THROTTLE_MS ≤ t := by
            have := h.2.2
            omega
          have hrest := ih {st with interLast := pyStripS p0, lastInterT := t}
          simp only [appRun, appLoopStep, if_neg hl, if_pos h, interTimes]
          exact List.chain'_cons.mpr ⟨harith, hrest⟩
        · simpa [appRun, appLoopStep, if_neg hl, if_neg h] using ih st

/-- C9 (amended): in any run of the `src/Voxtext.py` consumer loop and of
the `src/Voxtext_app.py` stt loop, any two emitted partials are separated
by at least the 0.08 s throttle interval, and both final branches are
independent of the clock, so finals are never throttled.  (The `differs`
test compares against the tracked `partial_last`, which the final branch
of `src/Voxtext.py` resets to the empty string.) -/
theorem C9_partial_throttle (st : VoxState) (input : List (RecOut × ℤ))
    (t : String) (n1 n2 : ℤ)
    (stA : AppState) (inputA : List (RecOut × ℤ)) (tA : String) (m1 m2 : ℤ) :
    List.Pairwise (fun a b : ℤ => a + THROTTLE_MS ≤ b) (interTimes (vtRun st input).2.1)
    ∧ vtStep st (.fin t) n1 = vtStep st (.fin t) n2
    ∧ List.Pairwise (fun a b : ℤ => a + THROTTLE_MS ≤ b)
        (interTimes (appRun stA inputA).2.1)
    ∧ appLoopStep stA (.fin tA) m1 = appLoopStep stA (.fin tA) m2 := by
  haveI : IsTrans ℤ (fun a b : ℤ => a + THROTTLE_MS ≤ b) := by
    constructor
    intro a b c hab hbc
    have hT : (0:ℤ) ≤ THROTTLE_MS := by norm_num [THROTTLE_MS]
    simp only at hab hbc ⊢
    omega
  refine ⟨?_, rfl, ?_, rfl⟩
  · exact (List.chain'_iff_pairwise.mp (vtRun_inter_chain input st)).of_cons
  · exact (List.chain'_iff_pairwise.mp (appRun_inter_chain inputA stA)).of_cons

/-- C9 counterexample: after an intervening final resets `partial_last`,
`src/Voxtext.py` re-emits a partial equal to the last emitted partial, so
a partial can be emitted without differing from the last emitted one. -/
theorem C9_counterexample :
    interTexts (vtRun vtSt0 [(.inter " hi ", 100), (.fin "done", 100), (.inter "hi", 200)]).2.1
      = ["hi", "hi"]
    ∧ (vtRun vtSt0 [(.inter " hi ", 100), (.fin "done", 100), (.inter "hi", 200)]).2.1
      = [(.inter "hi", 100), (.fin "done", 100), (.inter "hi", 200)] := by
  decide

/-- C8 counterexample: in `src/Voxtext.py` a recognizer exception is not
caught inside the loop iteration; the run aborts and the following frame
is never processed, although that frame alone would have produced a
partial. -/
theorem C8_counterexample :
    vtRun vtSt0 [(.err, 0), (.inter "hi", 100)] = (vtSt0, [], true)
    ∧ (vtRun vtSt0 [(.inter "hi", 100)]).2.1 = [(.inter "hi", 100)] := by
  decide

/-- The start-of-cycle drain empties the queue. -/
theorem drainAll_eq_nil (l : List Nat) : drainAll l = [] := by
  induction l with
  | nil => rfl
  | cons a as ih => exact ih

/-- The calls recorded by a stop transition contain exactly one
`FinalResult()` call, after the drained accepts. -/
theorem count_drain_calls (l : List Nat) :
    ((l.map (fun f => RecCall.accept f .drain false)) ++ [RecCall.finalResult]).count
      RecCall.finalResult = 1 := by
  rw [List.count_append]
  have h0 : (l.map (fun f => RecCall.accept f .drain false)).count RecCall.finalResult
      = 0 := by
    rw [List.count_eq_zero]
    intro hmem
    rcases List.mem_map.mp hmem with ⟨f, _, hf⟩
    simp at hf
  rw [h0]
  rfl

/-- Any push-to-talk event preserves the gating discipline of the call
trace. -/
theorem ptt1Run_gating (es : List PTT1Event) (st : PTT1State)
    (h : st.calls.all gatingOk = true) :
    ((ptt1Run st es).calls.all gatingOk) = true := by
  induction es generalizing st with
  | nil => exact h
  | cons e rest ih =>
    apply ih
    cases e with
    | callback f =>
      simp only [ptt1Step]
      split_ifs <;> exact h
    | workerStep fails =>
      obtain ⟨l, q, lf, fs, cs⟩ := st
      simp only [ptt1Step]
      cases q with
      | nil => exact h
      | cons f rest2 =>
        cases l with
        | false => exact h
        | true => simp [List.all_append, gatingOk, h]
    | toggle t now costs =>
      obtain ⟨l, q, lf, fs, cs⟩ := st
      simp only [ptt1Step]
      cases l with
      | false => simp [List.all_append, gatingOk, h]
      | true =>
        simp only [ptt1Finalize, if_true]
        split_ifs <;>
          simp [List.all_append, gatingOk, List.all_map, List.all_eq_true, h]

/-- C1 (amended): in any run of the push-to-talk session, every frame
forwarded to the recognizer by the worker loop is forwarded while
`listening` is true, and every frame forwarded with `listening` false is
forwarded by the stop-transition drain. -/
theorem C1_worker_gating (es : List PTT1Event) :
    ((ptt1Run ptt1St0 es).calls.all gatingOk) = true :=
  ptt1Run_gating es ptt1St0 rfl

/-- C1 counterexample: a queued frame left at the moment of the stop
press is popped from the audio queue and forwarded to the recognizer by
the drain while `listening` is already false, so the gating condition
does not hold at the moment of forwarding. -/
theorem C1_counterexample :
    RecCall.accept 7 .drain false
      ∈ (ptt1Run ptt1St0 [.toggle "" 0 [], .callback 7, .toggle "ok" 0 []]).calls
    ∧ (ptt1Run ptt1St0 [.toggle "" 0 [], .callback 7, .toggle "ok" 0 []]).calls
      = [RecCall.reset, RecCall.accept 7 .drain false, RecCall.finalResult] := by
  decide

/-- C6: every push-to-talk stop transition — `src/Voxtext1.py`'s
`toggle_listening` stop branch and `src/Voxtext_app.py`'s — forwards
exactly the frames the drain loop pops before its deadline, then calls
`FinalResult()` exactly once (the calls appended by the transition are
the drained accepts followed by the single flush), and the drain loop
stops only because the queue is empty or the 400 ms deadline has been
reached. -/
theorem C6_stop_drain_flush (st : PTT1State) (t : String) (now : ℤ) (costs : List ℤ)
    (stA : AppState) (tA : String) (nA : ℤ) (costsA : List ℤ) :
    ((ptt1Finalize st t now costs).2
      = (drainLoop (now + DRAIN_WINDOW_MS) st.q now costs).1.map
          (fun f => RecCall.accept f .drain false) ++ [RecCall.finalResult]
    ∧ (ptt1Finalize st t now costs).2.count RecCall.finalResult = 1
    ∧ ((drainLoop (now + DRAIN_WINDOW_MS) st.q now costs).2.1 = []
        ∨ now + DRAIN_WINDOW_MS ≤ (drainLoop (now + DRAIN_WINDOW_MS) st.q now costs).2.2))
    ∧ ((appToggleStop stA tA nA costsA).1.calls
      = stA.calls ++ (drainLoop (nA + DRAIN_WINDOW_MS) stA.q nA costsA).1.map
          (fun f => RecCall.accept f .drain false) ++ [RecCall.finalResult]
    ∧ ((drainLoop (nA + DRAIN_WINDOW_MS) stA.q nA costsA).1.map
          (fun f => RecCall.accept f .drain false) ++ [RecCall.finalResult]).count
          RecCall.finalResult = 1
    ∧ ((drainLoop (nA + DRAIN_WINDOW_MS) stA.q nA costsA).2.1 = []
        ∨ nA + DRAIN_WINDOW_MS
            ≤ (drainLoop (nA + DRAIN_WINDOW_MS) stA.q nA costsA).2.2)) := by
  constructor
  · refine ⟨?_, ?_, drainLoop_exit _ _ _ _⟩
    · unfold ptt1Finalize
      split_ifs <;> rfl
    · have h2 : (ptt1Finalize st t now costs).2
          = (drainLoop (now + DRAIN_WINDOW_MS) st.q now costs).1.map
              (fun f => RecCall.accept f .drain false) ++ [RecCall.finalResult] := by
        unfold ptt1Finalize
        split_ifs <;> rfl
      rw [h2]
      exact count_drain_calls _
  · refine ⟨?_, count_drain_calls _, drainLoop_exit _ _ _ _⟩
    simp only [appToggleStop]
    split_ifs <;> rfl

/-- C7 counterexample: pressing start in `src/Voxtext1.py` with a
previous cycle's final text stored leaves `last_final` untouched, so the
duplicate-suppression state is not cleared at the start of the listen
cycle. -/
theorem C7_counterexample :
    (ptt1Step ⟨false, [], "hello", [], []⟩ (.toggle "" 0 [])).lastFinal = "hello"
    ∧ (ptt1Step ⟨false, [], "hello", [], []⟩ (.toggle "" 0 [])).listening = true
    ∧ ("hello" : String) ≠ "" := by
  decide

/-- C7 (amended): at the start of a listen cycle `src/Voxtext1.py` only
resets the recognizer and preserves `last_final`, while
`src/Voxtext_app.py` resets the recognizer and clears the
duplicate-suppression and partial-throttle state and the queue. -/
theorem C7_cycle_reset (st : PTT1State) (t : String) (now : ℤ) (costs : List ℤ)
    (stA : AppState) (h : st.listening = false) :
    ((ptt1Step st (.toggle t now costs)).listening = true
      ∧ (ptt1Step st (.toggle t now costs)).lastFinal = st.lastFinal
      ∧ (ptt1Step st (.toggle t now costs)).calls = st.calls ++ [RecCall.reset])
    ∧ ((appToggleStart stA).listening = true
      ∧ (appToggleStart stA).lastFinalText = ""
      ∧ (appToggleStart stA).interLast = ""
      ∧ (appToggleStart stA).lastInterT = 0
      ∧ (appToggleStart stA).q = []
      ∧ (appToggleStart stA).calls = stA.calls ++ [RecCall.reset]) := by
  constructor
  · have hstep : ptt1Step st (.toggle t now costs)
        = ⟨true, st.q, st.lastFinal, st.finals, st.calls ++ [RecCall.reset]⟩ := by
      simp only [ptt1Step, h]
      rfl
    rw [hstep]
    exact ⟨rfl, rfl, rfl⟩
  · exact ⟨rfl, rfl, rfl, rfl, drainAll_eq_nil stA.q, rfl⟩

/-- Witness for C7 at a concrete non-listening state carrying a stale
final. -/
theorem C7_cycle_reset_witness :
    ((⟨false, [], "hello", [], []⟩ : PTT1State).listening = false)
    ∧ (((ptt1Step ⟨false, [], "hello", [], []⟩ (.toggle "x" 5 [1])).listening = true
      ∧ (ptt1Step ⟨false, [], "hello", [], []⟩ (.toggle "x" 5 [1])).lastFinal
          = (⟨false, [], "hello", [], []⟩ : PTT1State).lastFinal
      ∧ (ptt1Step ⟨false, [], "hello", [], []⟩ (.toggle "x" 5 [1])).calls
          = (⟨false, [], "hello", [], []⟩ : PTT1State).calls ++ [RecCall.reset])
    ∧ ((appToggleStart ⟨false, [3], "a", "b", 7, []⟩).listening = true
      ∧ (appToggleStart ⟨false, [3], "a", "b", 7, []⟩).lastFinalText = ""
      ∧ (appToggleStart ⟨false, [3], "a", "b", 7, []⟩).interLast = ""
      ∧ (appToggleStart ⟨false, [3], "a", "b", 7, []⟩).lastInterT = 0
      ∧ (appToggleStart ⟨false, [3], "a", "b", 7, []⟩).q = []
      ∧ (appToggleStart ⟨false, [3], "a", "b", 7, []⟩).calls
          = (⟨false, [3], "a", "b", 7, []⟩ : AppState).calls ++ [RecCall.reset])) :=
  ⟨by decide, C7_cycle_reset ⟨false, [], "hello", [], []⟩ "x" 5 [1]
    ⟨false, [3], "a", "b", 7, []⟩ (by decide)⟩

/-- C8 (amended): in `src/Voxtext1.py` the worker loop's `AcceptWaveform`
is guarded by a `try` whose `except` swallows the error, so a failing
accept produces exactly the state of a succeeding one and the loop
continues; in `src/Voxtext.py` and in `src/Voxtext_app.py`'s stt loop a
recognizer error escapes the iteration and terminates the loop. -/
theorem C8_error_handling (st : PTT1State) (b : Bool) (stv : VoxState) (n1 : ℤ)
    (stA : AppState) (n2 : ℤ) :
    ptt1Step st (.workerStep b) = ptt1Step st (.workerStep false)
    ∧ vtStep stv .err n1 = none
    ∧ appLoopStep stA .err n2
        = (if stA.listening = false then some (stA, none) else none) := by
  refine ⟨rfl, rfl, ?_⟩
  unfold appLoopStep
  split_ifs <;> rfl

/-- C3 counterexample: the stop-flush path of `src/Voxtext_app.py` emits
a final that the `DuplicateFilter` predicate rejects (a shorter substring
of the last final), because that path compares with plain `!=` instead of
`should_print`. -/
theorem C3_counterexample :
    (appToggleStop ⟨true, [], "the cat sat", "", 0, []⟩ "the cat" 0 []).2
      = some "the cat"
    ∧ should_print "the cat" "the cat sat" = false := by
  decide

/-- C3 (amended): only the stop-flush path of `src/Voxtext1.py` filters
finals through `should_print`; the continuous-loop finals of
`src/Voxtext.py`, the stt-loop finals of `src/Voxtext_app.py` and the
stop-flush finals of `src/Voxtext_app.py` are filtered only by the
minimum length and exact inequality with the stored last final text. -/
theorem C3_final_filters (stv : VoxState) (t : String) (n1 : ℤ)
    (stA : AppState) (tA : String) (nA : ℤ) (costsA : List ℤ)
    (st1 : PTT1State) (t1 : String) (nP : ℤ) (costsP : List ℤ) :
    (vtStep stv (.fin t) n1
      = if VT_MIN_FINAL_CHARS ≤ (pyStripS t).length ∧ pyStripS t ≠ stv.lastFinalText
        then some (⟨pyStripS t, "", stv.lastInterT⟩, some (.fin (pyStripS t)))
        else some (stv, none))
    ∧ ((appToggleStop stA tA nA costsA).2
      = if APP_MIN_FINAL_CHARS ≤ (pyStripS tA).length ∧ pyStripS tA ≠ stA.lastFinalText
        then some (pyStripS tA) else none)
    ∧ (appLoopStep stA (.fin tA) nA
      = if stA.listening = false then some (stA, none)
        else if APP_MIN_FINAL_CHARS ≤ (pyStripS tA).length
            ∧ pyStripS tA ≠ stA.lastFinalText
        then some ({stA with lastFinalText := pyStripS tA}, some (.fin (pyStripS tA)))
        else some (stA, none))
    ∧ ((ptt1Finalize st1 t1 nP costsP).1.finals
      = st1.finals ++
          (if V1_MIN_FINAL_CHARS ≤ (pyStripS t1).length
              ∧ should_print (pyStripS t1) st1.lastFinal = true
          then [pyStripS t1] else [])) := by
  refine ⟨rfl, ?_, ?_, ?_⟩
  · unfold appToggleStop
    split_ifs <;> rfl
  · simp only [appLoopStep]
  · unfold ptt1Finalize
    split_ifs <;> simp

/-- A stop press emits the stripped final text whenever the stored last
final text is empty and the stripped text is not. -/
theorem appStop_emits (stX : AppState) (t : String) (n : ℤ) (costs : List ℤ)
    (h0 : stX.lastFinalText = "") (h : pyStripS t ≠ "") :
    (appToggleStop stX t n costs).2 = some (pyStripS t)
    ∧ (appToggleStop stX t n costs).1.lastFinalText = pyStripS t := by
  have hc : APP_MIN_FINAL_CHARS ≤ (pyStripS t).length ∧ pyStripS t ≠ stX.lastFinalText :=
    ⟨strLengthPos _ h, by rw [h0]; exact h⟩
  simp only [appToggleStop]
  rw [if_pos hc]
  exact ⟨rfl, rfl⟩

/-- C10: in `src/Voxtext_app.py` every listen-cycle start clears
`last_final_text` and `partial_last` to the empty string and empties the
audio queue, so duplicate suppression never spans listen cycles: two
consecutive cycles that each finalize the same non-empty stripped text
both emit it. -/
theorem C10_no_cross_cycle_dedup (st : AppState) (t : String)
    (nA nB : ℤ) (costsA costsB : List ℤ) (h : pyStripS t ≠ "") :
    (appToggleStart st).lastFinalText = ""
    ∧ (appToggleStart st).interLast = ""
    ∧ (appToggleStart st).q = []
    ∧ (appToggleStop (appToggleStart st) t nA costsA).2 = some (pyStripS t)
    ∧ (appToggleStop (appToggleStart (appToggleStop (appToggleStart st) t nA costsA).1)
        t nB costsB).2 = some (pyStripS t) := by
  refine ⟨rfl, rfl, drainAll_eq_nil _, ?_, ?_⟩
  · exact (appStop_emits _ t nA costsA rfl h).1
  · exact (appStop_emits _ t nB costsB rfl h).1

/-- Witness for C10: two consecutive cycles finalizing the text
`"hello"`. -/
theorem C10_no_cross_cycle_dedup_witness :
    pyStripS "hello" ≠ ""
    ∧ ((appToggleStart ⟨true, [4], "old", "p", 3, []⟩).lastFinalText = ""
      ∧ (appToggleStart ⟨true, [4], "old", "p", 3, []⟩).interLast = ""
      ∧ (appToggleStart ⟨true, [4], "old", "p", 3, []⟩).q = []
      ∧ (appToggleStop (appToggleStart ⟨true, [4], "old", "p", 3, []⟩)
          "hello" 0 []).2 = some (pyStripS "hello")
      ∧ (appToggleStop (appToggleStart
            (appToggleStop (appToggleStart ⟨true, [4], "old", "p", 3, []⟩)
              "hello" 0 []).1) "hello" 1000 []).2 = some (pyStripS "hello")) :=
  ⟨by decide,
    C10_no_cross_cycle_dedup ⟨true, [4], "old", "p", 3, []⟩ "hello" 0 1000 [] []
      (by decide)⟩

/-- From `Silence`, a frame at or above the start threshold enters
`Onset` with one block of onset duration accumulated. -/
theorem gateStep_silence_high (cfg : GateCfg) (g : GateSt) (e : Nat)
    (hst : g.state = .Silence) (he : cfg.startThreshold ≤ e) :
    (gateStep cfg g e).1 = ⟨.Onset, cfg.blockMs, g.hangLeftMs, g.silenceMs, 0⟩ := by
  unfold gateStep
  rw [hst]
  dsimp only
  rw [if_pos he]

/-- From `Silence`, a frame below the start threshold stays in
`Silence`. -/
theorem gateStep_silence_low (cfg : GateCfg) (g : GateSt) (e : Nat)
    (hst : g.state = .Silence) (hlow : e < cfg.startThreshold) :
    (gateStep cfg g e).1.state = .Silence := by
  unfold gateStep
  rw [hst]
  dsimp only
  rw [if_neg (not_le.mpr hlow)]
  split_ifs <;> rfl

/-- From `Onset`, a frame below the start threshold falls back to
`Silence`. -/
theorem gateStep_onset_low (cfg : GateCfg) (g : GateSt) (e : Nat)
    (hst : g.state = .Onset) (hlow : e < cfg.startThreshold) :
    (gateStep cfg g e).1 = ⟨.Silence, 0, g.hangLeftMs, g.silenceMs, 0⟩ := by
  unfold gateStep
  rw [hst]
  dsimp only
  rw [if_pos hlow]

/-- From `Onset`, a high frame that still leaves the accumulated onset
duration short of the minimum speech duration stays in `Onset`. -/
theorem gateStep_onset_high_short (cfg : GateCfg) (g : GateSt) (e : Nat)
    (hst : g.state = .Onset) (he : cfg.startThreshold ≤ e)
    (hshort : g.onsetMs + cfg.blockMs < cfg.minSpeechMs) :
    (gateStep cfg g e).1
      = ⟨.Onset, g.onsetMs + cfg.blockMs, g.hangLeftMs, g.silenceMs, 0⟩ := by
  unfold gateStep
  rw [hst]
  dsimp only
  rw [if_neg (not_lt.mpr he), if_neg (by omega)]

/-- Running the gate from `Onset` over high frames whose total duration
stays below the minimum speech duration keeps it in `Onset`, accumulating
one block per frame. -/
theorem gateRun_onset (cfg : GateCfg) (l : List Nat) (g : GateSt)
    (hst : g.state = .Onset)
    (hhigh : ∀ e ∈ l, cfg.startThreshold ≤ e)
    (hbound : g.onsetMs + l.length * cfg.blockMs < cfg.minSpeechMs) :
    (gateRun cfg g l).state = .Onset
    ∧ (gateRun cfg g l).onsetMs = g.onsetMs + l.length * cfg.blockMs := by
  induction l generalizing g with
  | nil => exact ⟨hst, by simp [gateRun]⟩
  | cons e rest ih =>
    have he : cfg.startThreshold ≤ e := hhigh e (List.mem_cons_self e rest)
    have hlen : (e :: rest).length * cfg.blockMs
        = cfg.blockMs + rest.length * cfg.blockMs := by
      simp [List.length_cons]
      ring
    have hshort : g.onsetMs + cfg.blockMs < cfg.minSpeechMs := by
      rw [hlen] at hbound
      omega
    have hstep := gateStep_onset_high_short cfg g e hst he hshort
    have hrun : gateRun cfg g (e :: rest)
        = gateRun cfg (gateStep cfg g e).1 rest := by
      simp [gateRun]
    rw [hrun, hstep]
    have hbound2 : (⟨.Onset, g.onsetMs + cfg.blockMs, g.hangLeftMs, g.silenceMs, 0⟩
        : GateSt).onsetMs + rest.length * cfg.blockMs < cfg.minSpeechMs := by
      dsimp only
      rw [hlen] at hbound
      omega
    have hres := ih ⟨.Onset, g.onsetMs + cfg.blockMs, g.hangLeftMs, g.silenceMs, 0⟩
      rfl (fun x hx => hhigh x (List.mem_cons_of_mem e hx)) hbound2
    refine ⟨hres.1, ?_⟩
    rw [hres.2]
    dsimp only
    rw [hlen]
    ring

/-- Running the gate from `Silence` over a nonempty spike of high frames
whose total duration stays below the minimum speech duration lands in
`Onset` with the spike's duration accumulated. -/
theorem gateRun_spike_cons (cfg : GateCfg) (g : GateSt) (e : Nat) (rest : List Nat)
    (hst : g.state = .Silence)
    (hhigh : ∀ x ∈ e :: rest, cfg.startThreshold ≤ x)
    (hshort : (e :: rest).length * cfg.blockMs < cfg.minSpeechMs) :
    (gateRun cfg g (e :: rest)).state = .Onset
    ∧ (gateRun cfg g (e :: rest)).onsetMs = (e :: rest).length * cfg.blockMs := by
  have he := hhigh e (List.mem_cons_self e rest)
  have hstep := gateStep_silence_high cfg g e hst he
  have hrun : gateRun cfg g (e :: rest) = gateRun cfg (gateStep cfg g e).1 rest := by
    simp [gateRun]
  have hlen : (e :: rest).length * cfg.blockMs
      = cfg.blockMs + rest.length * cfg.blockMs := by
    simp [List.length_cons]
    ring
  have hbound : (⟨.Onset, cfg.blockMs, g.hangLeftMs, g.silenceMs, 0⟩
      : GateSt).onsetMs + rest.length * cfg.blockMs < cfg.minSpeechMs := by
    dsimp only
    rw [hlen] at hshort
    omega
  have hres := gateRun_onset cfg rest
    ⟨.Onset, cfg.blockMs, g.hangLeftMs, g.silenceMs, 0⟩ rfl
    (fun x hx => hhigh x (List.mem_cons_of_mem e hx)) hbound
  rw [hrun, hstep]
  refine ⟨hres.1, ?_⟩
  rw [hres.2, hlen]

/-- C4: a spike of frames at or above the start threshold whose total
duration is below the minimum speech duration moves the gate from
`Silence` into `Onset` and never into `Speech`; the recognizer is never
fed during the spike, and a following below-threshold frame falls back to
`Silence`. -/
theorem C4_gate_hysteresis (cfg : GateCfg) (g : GateSt) (spike : List Nat) (e2 : Nat)
    (hst : g.state = .Silence)
    (hhigh : ∀ e ∈ spike, cfg.startThreshold ≤ e)
    (hshort : spike.length * cfg.blockMs < cfg.minSpeechMs)
    (hlow : e2 < cfg.startThreshold) :
    (∀ p, p <+: spike → p ≠ [] → (gateRun cfg g p).state = .Onset)
    ∧ (∀ p, p <+: spike →
        (gateRun cfg g p).state ≠ .Speech ∧ gateFeeds (gateRun cfg g p) = false)
    ∧ (gateStep cfg (gateRun cfg g spike) e2).1.state = .Silence := by
  have hpre : ∀ p, p <+: spike → p ≠ [] → (gateRun cfg g p).state = .Onset := by
    intro p hp hne
    match p, hne with
    | e :: rest, _ =>
      have hhigh2 : ∀ x ∈ e :: rest, cfg.startThreshold ≤ x :=
        fun x hx => hhigh x (hp.sublist.subset hx)
      have hmul : (e :: rest).length * cfg.blockMs ≤ spike.length * cfg.blockMs :=
        Nat.mul_le_mul_right cfg.blockMs hp.length_le
      exact (gateRun_spike_cons cfg g e rest hst hhigh2
        (lt_of_le_of_lt hmul hshort)).1
  have hsil_or : ∀ p, p <+: spike →
      (gateRun cfg g p).state = .Silence ∨ (gateRun cfg g p).state = .Onset := by
    intro p hp
    rcases eq_or_ne p [] with rfl | hne
    · left
      simpa [gateRun] using hst
    · right
      exact hpre p hp hne
  refine ⟨hpre, ?_, ?_⟩
  · intro p hp
    rcases hsil_or p hp with h | h
    · constructor
      · rw [h]
        intro hco
        exact GateState.noConfusion hco
      · unfold gateFeeds
        rw [h]
    · constructor
      · rw [h]
        intro hco
        exact GateState.noConfusion hco
      · unfold gateFeeds
        rw [h]
  · rcases hsil_or spike (List.prefix_refl spike) with h | h
    · exact gateStep_silence_low cfg _ e2 h hlow
    · rw [gateStep_onset_low cfg _ e2 h hlow]

/-- Witness for C4: a two-frame spike of 60 ms against a 100 ms minimum
speech duration. -/
theorem C4_gate_hysteresis_witness :
    ((⟨.Silence, 0, 0, 0, 0⟩ : GateSt).state = GateState.Silence)
    ∧ (∀ e ∈ [12, 15], (⟨10, 5, 100, 300, 1000, 30⟩ : GateCfg).startThreshold ≤ e)
    ∧ ([12, 15].length * (⟨10, 5, 100, 300, 1000, 30⟩ : GateCfg).blockMs
        < (⟨10, 5, 100, 300, 1000, 30⟩ : GateCfg).minSpeechMs)
    ∧ (3 < (⟨10, 5, 100, 300, 1000, 30⟩ : GateCfg).startThreshold)
    ∧ ((∀ p, p <+: [12, 15] → p ≠ [] →
          (gateRun ⟨10, 5, 100, 300, 1000, 30⟩ ⟨.Silence, 0, 0, 0, 0⟩ p).state = .Onset)
        ∧ (∀ p, p <+: [12, 15] →
            (gateRun ⟨10, 5, 100, 300, 1000, 30⟩ ⟨.Silence, 0, 0, 0, 0⟩ p).state ≠ .Speech
            ∧ gateFeeds (gateRun ⟨10, 5, 100, 300, 1000, 30⟩ ⟨.Silence, 0, 0, 0, 0⟩ p)
                = false)
        ∧ (gateStep ⟨10, 5, 100, 300, 1000, 30⟩
            (gateRun ⟨10, 5, 100, 300, 1000, 30⟩ ⟨.Silence, 0, 0, 0, 0⟩ [12, 15])
            3).1.state = .Silence) :=
  ⟨rfl, by decide, by decide, by decide,
    C4_gate_hysteresis ⟨10, 5, 100, 300, 1000, 30⟩ ⟨.Silence, 0, 0, 0, 0⟩ [12, 15] 3
      rfl (by decide) (by decide) (by decide)⟩
